import Mathlib

/-!
# influxdb-golang-sample: write-then-read client

A shallow embedding of `src/main.go`.  The program talks to two remote
services through client libraries; every answer of the outside world (the
environment variables, the order in which `range` visits the map, the replies
of the write API, of the Flight SQL client and of the JSON encoder) is a field
of `Env`.  The three functions of the program, `dbWrite`, `dbQuery` and
`main`, are pure functions of an `Env` that return the list of observable
events they cause, in order, together with the way they end.
-/

namespace InfluxSample

/-! ## Data model -/

/-- Dynamic values stored in the seed map (`interface{}` holding a string or an int). -/
inductive Value where
  | str (s : String)
  | int (n : Int)
deriving DecidableEq, Repr

/-- Go maps from string keys, as association lists; a lookup of an absent key yields `none`. -/
abbrev GoMap (α : Type) := List (String × α)

/-- Constant `INFLUXDB_URL`. -/
def INFLUXDB_URL : String := "https://us-east-1-1.aws.cloud2.influxdata.com"

/-- Constant `INFLUXDB_PORT`. -/
def INFLUXDB_PORT : String := ":443"

/-- The seed collection `data` (main.go lines 29-60). -/
def data : GoMap (GoMap Value) :=
  [ ("point1", [("location", .str "Klamath"),  ("species", .str "bees"), ("count", .int 23)]),
    ("point2", [("location", .str "Portland"), ("species", .str "ants"), ("count", .int 30)]),
    ("point3", [("location", .str "Klamath"),  ("species", .str "bees"), ("count", .int 28)]),
    ("point4", [("location", .str "Portland"), ("species", .str "ants"), ("count", .int 32)]),
    ("point5", [("location", .str "Klamath"),  ("species", .str "bees"), ("count", .int 29)]),
    ("point6", [("location", .str "Portland"), ("species", .str "ants"), ("count", .int 40)]) ]

/-- The keys of `data`. -/
def dataKeys : List String := data.map Prod.fst

/-- Modelled from the spec: the point type of the influxdb2 client library (not
under src/): a measurement name, tags, fields and an optional explicit
timestamp (glossary, "Point"). -/
structure Point where
  measurement : String
  tags : List (String × String)
  fields : List (String × Value)
  time : Option Nat
deriving DecidableEq, Repr

/-- Modelled from the spec: `influxdb2.NewPointWithMeasurement`, a point with
the given measurement, no tag, no field and no timestamp. -/
def NewPointWithMeasurement (m : String) : Point :=
  { measurement := m, tags := [], fields := [], time := none }

/-- Replace the value stored under `k`, or append the pair when `k` is absent. -/
def upsert {β : Type} (k : String) (v : β) : List (String × β) → List (String × β)
  | [] => [(k, v)]
  | (k', v') :: rest => if k = k' then (k', v) :: rest else (k', v') :: upsert k v rest

/-- Modelled from the spec: `Point.AddTag` of the influxdb2 client library,
which sets the tag `k` to `v` (a tag of that name is overwritten). -/
def Point.AddTag (p : Point) (k v : String) : Point :=
  { p with tags := upsert k v p.tags }

/-- Modelled from the spec: `Point.AddField` of the influxdb2 client library,
which sets the field `k` to `v` (a field of that name is overwritten). -/
def Point.AddField (p : Point) (k : String) (v : Value) : Point :=
  { p with fields := upsert k v p.fields }

/-- The blocking write API handle: `NewClient(INFLUXDB_URL, INFLUXDB_TOKEN)`
followed by `WriteAPIBlocking(ORGANISATION, BUCKET)`. -/
structure WriteAPI where
  serverURL : String
  authToken : String
  org : String
  bucket : String
deriving DecidableEq, Repr

/-- A `context.Context`, reduced to its outgoing gRPC metadata. -/
structure Context where
  outgoing : List (String × String)
deriving DecidableEq, Repr

/-- The empty context of `context.Background()`. -/
def Context.Background : Context := { outgoing := [] }

/-- Model of `metadata.AppendToOutgoingContext(ctx, k, v)`: one more key-value pair. -/
def AppendToOutgoingContext (ctx : Context) (k v : String) : Context :=
  { outgoing := ctx.outgoing ++ [(k, v)] }

/-- A Flight ticket, a string of bytes. -/
structure Ticket where
  bytes : List Nat
deriving DecidableEq, Repr

/-- One endpoint of a query plan; the ticket is a pointer and may be nil. -/
structure FlightEndpoint where
  ticket : Option Ticket
  location : List String
deriving DecidableEq, Repr

/-- The query-plan descriptor returned by `Execute`. -/
structure FlightInfo where
  endpoint : List FlightEndpoint
deriving DecidableEq, Repr

/-- The system trust store. -/
structure CertPool where
  subjects : List String
deriving DecidableEq, Repr

/-- The dial option `grpc.WithTransportCredentials(credentials.NewClientTLSFromCert(pool, name))`. -/
structure DialOption where
  pool : CertPool
  serverNameOverride : String
deriving DecidableEq, Repr

/-- A record stream as seen through `reader.Next()`, `reader.Record()` and
`reader.Err()`.  `batches` lists the pulls for which `Next()` is true, each
with the record `Record()` then returns and the value `Err()` then returns;
`final` is what `Err()` returns once `Next()` has returned false. -/
structure RecordStream (ρ : Type) where
  batches : List (ρ × Option String)
  final : Option String

/-- The Flight SQL client returned by `flightsql.NewClient`. -/
structure Client (ρ : Type) where
  Execute : Context → String → Except String FlightInfo
  DoGet : Context → Option Ticket → Except String (RecordStream ρ)

/-- Everything the program obtains from outside.  `ρ` is the type of Arrow record batches. -/
structure Env (ρ : Type) where
  ORGANISATION : String
  BUCKET : String
  INFLUXDB_TOKEN : String
  /-- The order in which `for key := range data` visits the keys. -/
  rangeOrder : List String
  /-- The error returned by the call of `WritePoint` that follows `n` acknowledged
  ones (`none` is an acknowledgment). -/
  WritePoint : Nat → WriteAPI → Context → Point → Option String
  SystemCertPool : Except String CertPool
  NewClient : String → List DialOption → Except String (Client ρ)
  /-- The result of `json.Marshal` on a record batch. -/
  Marshal : ρ → Except String String

/-- Observable events, in the order the program causes them. -/
inductive Event where
  | writePoint (api : WriteAPI) (ctx : Context) (point : Point)
  | sleep (nanos : Nat)
  | execute (ctx : Context) (query : String)
  | doGet (ctx : Context) (ticket : Option Ticket)
  | stdout (text : String)
  | stderr (text : String)
deriving DecidableEq, Repr

/-- How a call of `dbWrite` or `dbQuery` ends: it returns an `error` value
(`none` is nil) or it panics. -/
inductive Outcome where
  | returned (err : Option String)
  | panicked (msg : String)
deriving DecidableEq, Repr

/-- How the process ends: `os.Exit(code)` (falling off `main` is code 0), or an
uncaught panic. -/
inductive Status where
  | exit (code : Nat)
  | panic (msg : String)
deriving DecidableEq, Repr

/-- The duration `time.Second`, in nanoseconds. -/
def Second : Nat := 1000000000

/-! ## dbWrite -/

/-- The type assertion `v.(string)` on the result of a map lookup. -/
def assertString : Option Value → Except String String
  | some (.str s) => .ok s
  | some (.int _) => .error "interface conversion: interface \x7b\x7d is int, not string"
  | none => .error "interface conversion: interface \x7b\x7d is nil, not string"

/-- The lookup `data[key][field]`; an absent key gives a nil inner map, whose lookups give nil. -/
def dataAt (key field : String) : Option Value :=
  match data.lookup key with
  | some inner => inner.lookup field
  | none => none

/-- The value `data[key]["count"]` handed to `AddField` as an `interface{}` (nil when absent). -/
def countValue (key : String) : Value :=
  match dataAt key "count" with
  | some v => v
  | none => .str "<nil>"

/-- Lines 70-73: the point built for `key`, or the message of the panic of a failed type assertion. -/
def buildPoint (key : String) : Except String Point :=
  match assertString (dataAt key "location") with
  | .error msg => .error msg
  | .ok location =>
    match assertString (dataAt key "species") with
    | .error msg => .error msg
    | .ok species =>
      .ok (((NewPointWithMeasurement "census").AddTag "location" location).AddField species
        (countValue key))

/-- The loop of `dbWrite` (lines 69-81) over the keys still to visit; `n` counts
the submissions acknowledged so far. -/
def dbWriteLoop {ρ : Type} (env : Env ρ) (api : WriteAPI) (ctx : Context) :
    List String → Nat → List Event × Outcome
  | [], _ => ([], .returned none)
  | key :: rest, n =>
    match buildPoint key with
    | .error msg => ([], .panicked msg)
    | .ok point =>
      match env.WritePoint n api ctx point with
      | some err => ([.writePoint api ctx point], .returned (some ("write API write point: " ++ err)))
      | none =>
        let r := dbWriteLoop env api ctx rest (n + 1)
        (.writePoint api ctx point :: .sleep (1 * Second) :: r.1, r.2)

/-- The write handle `dbWrite` creates (lines 65-67). -/
def writeAPI {ρ : Type} (env : Env ρ) : WriteAPI :=
  { serverURL := INFLUXDB_URL, authToken := env.INFLUXDB_TOKEN,
    org := env.ORGANISATION, bucket := env.BUCKET }

/-- Function `dbWrite` (lines 64-84). -/
def dbWrite {ρ : Type} (env : Env ρ) (ctx : Context) : List Event × Outcome :=
  dbWriteLoop env (writeAPI env) ctx env.rangeOrder 0

/-! ## dbQuery -/

/-- Drop `pre` from the front of `s` when `s` starts with it. -/
def dropFront : List Char → List Char → Option (List Char)
  | [], s => some s
  | _ :: _, [] => none
  | c :: pre, d :: s => if c = d then dropFront pre s else none

/-- Model of `strings.TrimPrefix`. -/
def TrimPrefix (s pre : String) : String :=
  match dropFront pre.data s.data with
  | some rest => String.mk rest
  | none => s

/-- The fixed query text (lines 106-109), a raw string literal that spans four lines. -/
def query : String :=
  "SELECT *\n\t\t\t  FROM 'census'\n\t\t\t  WHERE time >= now() - interval '1 hour'\n\t\t\t  AND ('bees' IS NOT NULL OR 'ants' IS NOT NULL)"

/-- The read loop of `dbQuery` (lines 121-134).  Each element is a pull for
which `reader.Next()` is true.  When `Next()` is false the loop is left and
`dbQuery` returns nil without reading `reader.Err()`, so the stream's final
error plays no role. -/
def readLoop {ρ : Type} (marshal : ρ → Except String String) :
    List (ρ × Option String) → List Event × Outcome
  | [] => ([], .returned none)
  | (record, readerErr) :: rest =>
    match marshal record with
    | .error err => ([], .returned (some err))
    | .ok b =>
      match readerErr with
      | some err => ([.stdout (b ++ "\n")], .returned (some ("flightsql reader: " ++ err)))
      | none =>
        let r := readLoop marshal rest
        (.stdout (b ++ "\n") :: r.1, r.2)

/-- The context `dbQuery` uses for its calls (lines 103-104). -/
def queryContext {ρ : Type} (env : Env ρ) (ctx : Context) : Context :=
  AppendToOutgoingContext
    (AppendToOutgoingContext ctx "authorization" ("Bearer " ++ env.INFLUXDB_TOKEN))
    "bucket-name" env.BUCKET

/-- The dial target of line 96. -/
def dialURL : String := TrimPrefix INFLUXDB_URL "https://" ++ INFLUXDB_PORT

/-- The dial options of lines 93-94. -/
def dialOpts (pool : CertPool) : List DialOption :=
  [{ pool := pool, serverNameOverride := "" }]

/-- Function `dbQuery` (lines 87-135). -/
def dbQuery {ρ : Type} (env : Env ρ) (ctx : Context) : List Event × Outcome :=
  match env.SystemCertPool with
  | .error err => ([], .returned (some ("x509: " ++ err)))
  | .ok pool =>
    let opts := dialOpts pool
    let url := dialURL
    match env.NewClient url opts with
    | .error err => ([], .returned (some ("flightsql: " ++ err)))
    | .ok client =>
      let ctx := queryContext env ctx
      match client.Execute ctx query with
      | .error err => ([.execute ctx query], .returned (some ("flightsql flight info: " ++ err)))
      | .ok info =>
        match info.endpoint with
        | [] =>
          ([.execute ctx query], .panicked "runtime error: index out of range [0] with length 0")
        | first :: _ =>
          match client.DoGet ctx first.ticket with
          | .error err =>
            ([.execute ctx query, .doGet ctx first.ticket],
              .returned (some ("flightsql do get: " ++ err)))
          | .ok reader =>
            let r := readLoop env.Marshal reader.batches
            (.execute ctx query :: .doGet ctx first.ticket :: r.1, r.2)

/-! ## main -/

/-- Function `main` (lines 137-153): the events of the whole run and the way the process ends. -/
def main {ρ : Type} (env : Env ρ) : List Event × Status :=
  let w := dbWrite env Context.Background
  match w.2 with
  | .panicked msg => (w.1, .panic msg)
  | .returned (some err) => (w.1 ++ [.stderr ("error: " ++ err ++ "\n")], .exit 1)
  | .returned none =>
    let q := dbQuery env Context.Background
    match q.2 with
    | .panicked msg => (w.1 ++ .stdout "Write Successful...\n" :: q.1, .panic msg)
    | .returned (some err) =>
      (w.1 ++ .stdout "Write Successful...\n" :: q.1 ++ [.stderr ("error: " ++ err ++ "\n")],
        .exit 1)
    | .returned none =>
      (w.1 ++ .stdout "Write Successful...\n" :: q.1 ++ [.stdout "Read Successful...\n"], .exit 0)

/-! ## Observations on event lists -/

/-- The point of a submission event. -/
def Event.point? : Event → Option Point
  | .writePoint _ _ p => some p
  | _ => none

/-- The text of a write to standard output. -/
def Event.out? : Event → Option String
  | .stdout t => some t
  | _ => none

/-- The text of a write to standard error. -/
def Event.err? : Event → Option String
  | .stderr t => some t
  | _ => none

/-- The ticket of a streaming read. -/
def Event.ticket? : Event → Option (Option Ticket)
  | .doGet _ t => some t
  | _ => none

/-- The points submitted, in order. -/
def submissions (tr : List Event) : List Point := tr.filterMap Event.point?

/-- The texts written to standard output, in order. -/
def stdoutOf (tr : List Event) : List String := tr.filterMap Event.out?

/-- The texts written to standard error, in order. -/
def stderrOf (tr : List Event) : List String := tr.filterMap Event.err?

/-- The tickets of the streaming reads opened, in order. -/
def doGets (tr : List Event) : List (Option Ticket) := tr.filterMap Event.ticket?

/-- The points built from a list of keys (keys whose point cannot be built are left out). -/
def pointsOf (keys : List String) : List Point :=
  keys.filterMap (fun key => (buildPoint key).toOption)

/-- The events of one acknowledged submission: the call and the pause after it. -/
def acked (api : WriteAPI) (ctx : Context) (p : Point) : List Event :=
  [.writePoint api ctx p, .sleep Second]

/-- The outgoing metadata of `ctx` holds the bearer token and the bucket name of `env`. -/
def Carries {ρ : Type} (env : Env ρ) (ctx : Context) : Prop :=
  ("authorization", "Bearer " ++ env.INFLUXDB_TOKEN) ∈ ctx.outgoing ∧
    ("bucket-name", env.BUCKET) ∈ ctx.outgoing

/-! ## Sample environments -/

/-- A stream with no batch. -/
def emptyStream : RecordStream String := { batches := [], final := none }

/-- A client whose plan has one endpoint and whose stream is `s`. -/
def clientOf (s : RecordStream String) : Client String :=
  { Execute := fun _ _ => .ok { endpoint := [{ ticket := some ⟨[1]⟩, location := [] }] },
    DoGet := fun _ _ => .ok s }

/-- An environment in which every call succeeds and the query returns the stream `s`. -/
def envOf (s : RecordStream String) : Env String :=
  { ORGANISATION := "org", BUCKET := "bkt", INFLUXDB_TOKEN := "tok",
    rangeOrder := ["point1", "point2", "point3", "point4", "point5", "point6"],
    WritePoint := fun _ _ _ _ => none,
    SystemCertPool := .ok { subjects := [] },
    NewClient := fun _ _ => .ok (clientOf s),
    Marshal := fun r => .ok r }

/-- An environment like `envOf s` whose write API rejects the call that follows `j` acknowledged ones. -/
def envRejectAt (j : Nat) : Env String :=
  { envOf emptyStream with
    WritePoint := fun n _ _ _ => if n = j then some "503 Service Unavailable" else none }

/-- A stream that delivers one batch and then ends because of an error:
the second `Next()` is false and `Err()` is set. -/
def brokenStream : RecordStream String :=
  { batches := [("batch-1", none)], final := some "rpc error: code = Unavailable" }

/-- An environment in which the JSON encoder rejects every batch of a one-batch stream. -/
def envBadJSON : Env String :=
  { envOf { batches := [("batch-1", none)], final := none } with
    Marshal := fun _ => .error "json: unsupported value: NaN" }

/-- An environment in which the writes succeed and the system trust store cannot be loaded. -/
def envNoCertPool : Env String :=
  { envOf emptyStream with SystemCertPool := .error "no system roots" }

/-- An environment whose query plan lists the endpoints `eps`; the stream of a
ticket delivers one batch named after the ticket's bytes. -/
def envPlan (eps : List FlightEndpoint) : Env String :=
  { envOf emptyStream with
    NewClient := fun _ _ => .ok
      { Execute := fun _ _ => .ok { endpoint := eps },
        DoGet := fun _ t => .ok
          { batches := [(if t = some ⟨[1]⟩ then "batch-of-ticket-1" else "batch-of-another-ticket",
              none)],
            final := none } } }

/-- Two endpoints with different tickets. -/
def endpointOne : FlightEndpoint := { ticket := some ⟨[1]⟩, location := [] }

/-- The second of two endpoints with different tickets. -/
def endpointTwo : FlightEndpoint := { ticket := some ⟨[2]⟩, location := [] }

/-- A stream of two batches that ends without error. -/
def twoBatches : RecordStream String :=
  { batches := [("batch-1", none), ("batch-2", none)], final := none }

/-! ## Lemmas on dbWrite -/

theorem buildPoint_ok_of_mem (key : String) (h : key ∈ dataKeys) :
    ∃ p, buildPoint key = .ok p := by
  simp [dataKeys, data] at h
  rcases h with rfl | rfl | rfl | rfl | rfl | rfl <;> exact ⟨_, rfl⟩

theorem pointsOf_cons_ok (key : String) (rest : List String) (p : Point)
    (h : buildPoint key = .ok p) : pointsOf (key :: rest) = p :: pointsOf rest := by
  simp [pointsOf, List.filterMap_cons, h, Except.toOption]

theorem dbWriteLoop_fail {ρ : Type} (env : Env ρ) (api : WriteAPI) (ctx : Context)
    (keys : List String) :
    ∀ (n j : Nat) (p : Point) (e : String),
      (∀ key ∈ keys, key ∈ dataKeys) →
      (∀ i q, i < j → (pointsOf keys)[i]? = some q → env.WritePoint (n + i) api ctx q = none) →
      (pointsOf keys)[j]? = some p → env.WritePoint (n + j) api ctx p = some e →
      dbWriteLoop env api ctx keys n =
        (((pointsOf keys).take j).flatMap (acked api ctx) ++ [.writePoint api ctx p],
          .returned (some ("write API write point: " ++ e))) := by
  induction keys with
  | nil => intro n j p e _ _ hp _; simp [pointsOf] at hp
  | cons key rest ih =>
    intro n j p e hkeys hack hp hfail
    obtain ⟨p0, hb⟩ := buildPoint_ok_of_mem key (hkeys key (by simp))
    rw [pointsOf_cons_ok key rest p0 hb] at hp hack ⊢
    cases j with
    | zero =>
      simp at hp
      subst hp
      simp at hfail
      simp [dbWriteLoop, hb, hfail]
    | succ j =>
      have h0 : env.WritePoint n api ctx p0 = none := by
        have := hack 0 p0 (by omega) (by simp)
        simpa using this
      have hrest := ih (n + 1) j p e (fun k hk => hkeys k (by simp [hk]))
        (fun i q hi hq => by
          have := hack (i + 1) q (by omega) (by simpa using hq)
          rwa [show n + (i + 1) = n + 1 + i by omega] at this)
        (by simpa using hp)
        (by rwa [show n + (j + 1) = n + 1 + j by omega] at hfail)
      simp [dbWriteLoop, hb, h0, hrest, acked]

theorem dbWriteLoop_acked {ρ : Type} (env : Env ρ) (api : WriteAPI) (ctx : Context)
    (keys : List String) :
    ∀ (n : Nat),
      (∀ key ∈ keys, key ∈ dataKeys) →
      (∀ i q, (pointsOf keys)[i]? = some q → env.WritePoint (n + i) api ctx q = none) →
      dbWriteLoop env api ctx keys n =
        ((pointsOf keys).flatMap (acked api ctx), .returned none) := by
  induction keys with
  | nil => intro n _ _; simp [pointsOf, dbWriteLoop]
  | cons key rest ih =>
    intro n hkeys hack
    obtain ⟨p0, hb⟩ := buildPoint_ok_of_mem key (hkeys key (by simp))
    rw [pointsOf_cons_ok key rest p0 hb] at hack ⊢
    have h0 : env.WritePoint n api ctx p0 = none := by
      have := hack 0 p0 (by simp)
      simpa using this
    have hrest := ih (n + 1) (fun k hk => hkeys k (by simp [hk]))
      (fun i q hq => by
        have := hack (i + 1) q (by simpa using hq)
        rwa [show n + (i + 1) = n + 1 + i by omega] at this)
    simp [dbWriteLoop, hb, h0, hrest, acked]

theorem submissions_acked (api : WriteAPI) (ctx : Context) (ps : List Point) :
    submissions (ps.flatMap (acked api ctx)) = ps := by
  induction ps with
  | nil => rfl
  | cons p ps ih =>
    simp only [submissions] at ih
    simp [submissions, acked, List.filterMap_cons, Event.point?, ih]

theorem dbWriteLoop_events {ρ : Type} (env : Env ρ) (api : WriteAPI) (ctx : Context)
    (keys : List String) :
    ∀ (n : Nat), ∀ ev ∈ (dbWriteLoop env api ctx keys n).1,
      ev.out? = none ∧ ev.err? = none ∧ ev.ticket? = none := by
  induction keys with
  | nil => intro n ev h; simp [dbWriteLoop] at h
  | cons key rest ih =>
    intro n ev h
    unfold dbWriteLoop at h
    cases hb : buildPoint key with
    | error msg => simp [hb] at h
    | ok point =>
      cases hw : env.WritePoint n api ctx point with
      | some err =>
        simp [hb, hw] at h
        subst h
        simp [Event.out?, Event.err?, Event.ticket?]
      | none =>
        simp [hb, hw] at h
        rcases h with rfl | rfl | h
        · simp [Event.out?, Event.err?, Event.ticket?]
        · simp [Event.out?, Event.err?, Event.ticket?]
        · exact ih (n + 1) ev h

theorem dbWrite_silent {ρ : Type} (env : Env ρ) (ctx : Context) :
    stdoutOf (dbWrite env ctx).1 = [] ∧ stderrOf (dbWrite env ctx).1 = [] ∧
      doGets (dbWrite env ctx).1 = [] := by
  have h := dbWriteLoop_events env (writeAPI env) ctx env.rangeOrder 0
  refine ⟨?_, ?_, ?_⟩
  · simp only [stdoutOf, dbWrite, List.filterMap_eq_nil_iff]
    exact fun ev hev => (h ev hev).1
  · simp only [stderrOf, dbWrite, List.filterMap_eq_nil_iff]
    exact fun ev hev => (h ev hev).2.1
  · simp only [doGets, dbWrite, List.filterMap_eq_nil_iff]
    exact fun ev hev => (h ev hev).2.2

theorem sleep_between (api : WriteAPI) (ctx : Context) (ps : List Point) :
    ∀ (pre mid post : List Event) (a b : WriteAPI) (c d : Context) (p q : Point),
      ps.flatMap (acked api ctx) =
        pre ++ .writePoint a c p :: (mid ++ .writePoint b d q :: post) →
      Event.sleep Second ∈ mid := by
  induction ps with
  | nil => intro pre mid post a b c d p q h; simp at h
  | cons p0 ps ih =>
    intro pre mid post a b c d p q h
    simp only [List.flatMap_cons, acked, List.cons_append, List.nil_append] at h
    simp only [acked] at ih
    cases pre with
    | nil =>
      simp only [List.nil_append, List.cons.injEq] at h
      cases mid with
      | nil => simp at h
      | cons m mid =>
        simp only [List.cons_append, List.cons.injEq] at h
        simp [← h.2.1]
    | cons x pre =>
      simp only [List.cons_append, List.cons.injEq] at h
      cases pre with
      | nil => simp at h
      | cons y pre =>
        simp only [List.cons_append, List.cons.injEq] at h
        exact ih pre mid post a b c d p q h.2.2

theorem pointsOf_perm (order : List String) (h : order.Perm dataKeys) :
    (pointsOf order).Perm (pointsOf dataKeys) :=
  List.Perm.filterMap _ h

theorem pointsOf_forall₂ (keys : List String) (hkeys : ∀ key ∈ keys, key ∈ dataKeys) :
    List.Forall₂ (fun key p => buildPoint key = .ok p) keys (pointsOf keys) := by
  induction keys with
  | nil => simp [pointsOf]
  | cons key rest ih =>
    obtain ⟨p0, hb⟩ := buildPoint_ok_of_mem key (hkeys key (by simp))
    rw [pointsOf_cons_ok key rest p0 hb]
    exact List.Forall₂.cons hb (ih (fun k hk => hkeys k (by simp [hk])))

theorem dbWriteLoop_head {ρ : Type} (env : Env ρ) (api : WriteAPI) (ctx : Context)
    (key : String) (rest : List String) (n : Nat) (p : Point) (hb : buildPoint key = .ok p) :
    (dbWriteLoop env api ctx (key :: rest) n).1.head? = some (.writePoint api ctx p) := by
  unfold dbWriteLoop
  cases hw : env.WritePoint n api ctx p <;> simp [hb, hw]

/-! ## Claims on dbWrite -/

/-- C1: for every record `r` stored under a key of the seed collection, the
point `dbWrite` builds has measurement "census", the single tag
location = r.location, the single field r.species = r.count and no explicit
timestamp; it is the point of the first submission of the loop at that key. -/
theorem C1_point_shape (key : String) (r : GoMap Value) (h : (key, r) ∈ data) :
    ∃ location species count,
      r.lookup "location" = some (.str location) ∧
      r.lookup "species" = some (.str species) ∧
      r.lookup "count" = some count ∧
      buildPoint key = .ok { measurement := "census", tags := [("location", location)],
                             fields := [(species, count)], time := none } ∧
      ∀ {ρ : Type} (env : Env ρ) (api : WriteAPI) (ctx : Context) (rest : List String) (n : Nat),
        (dbWriteLoop env api ctx (key :: rest) n).1.head? =
          some (.writePoint api ctx { measurement := "census", tags := [("location", location)],
                                      fields := [(species, count)], time := none }) := by
  simp only [data, List.mem_cons, Prod.mk.injEq, List.mem_nil_iff, or_false] at h
  rcases h with ⟨rfl, rfl⟩ | ⟨rfl, rfl⟩ | ⟨rfl, rfl⟩ | ⟨rfl, rfl⟩ | ⟨rfl, rfl⟩ | ⟨rfl, rfl⟩ <;>
    exact ⟨_, _, _, rfl, rfl, rfl, rfl,
      fun env api ctx rest n => dbWriteLoop_head env api ctx _ rest n _ rfl⟩

/-- Witness of C1 at the record stored under "point1". -/
theorem C1_point_shape_witness :
    (("point1", [("location", Value.str "Klamath"), ("species", Value.str "bees"),
        ("count", Value.int 23)]) : String × GoMap Value) ∈ data ∧
      buildPoint "point1" = .ok { measurement := "census", tags := [("location", "Klamath")],
                                  fields := [("bees", .int 23)], time := none } := by
  refine ⟨by decide, ?_⟩
  obtain ⟨location, species, count, h1, h2, h3, h4, _⟩ :=
    C1_point_shape "point1" [("location", Value.str "Klamath"), ("species", Value.str "bees"),
      ("count", Value.int 23)] (by decide)
  have e1 : location = "Klamath" := by
    have : some (Value.str "Klamath") = some (Value.str location) := h1
    simpa using this.symm
  have e2 : species = "bees" := by
    have : some (Value.str "bees") = some (Value.str species) := h2
    simpa using this.symm
  have e3 : count = Value.int 23 := by
    have : some (Value.int 23) = some count := h3
    simpa using this.symm
  rw [h4, e1, e2, e3]

/-- C2: when the visiting order is a permutation of the keys, the first k-1
submissions are acknowledged and the k-th fails with cause `e`, `dbWrite`
submits exactly the first k points (each of the first k-1 followed by its
pause, nothing after the k-th), returns the error
"write API write point: " ++ e, and `main` reports it and exits with code 1. -/
theorem C2_fail_fast {ρ : Type} (env : Env ρ) (k : Nat) (p : Point) (e : String)
    (horder : env.rangeOrder.Perm dataKeys) (hk1 : 1 ≤ k)
    (hack : ∀ i q, i < k - 1 → (pointsOf env.rangeOrder)[i]? = some q →
      env.WritePoint i (writeAPI env) Context.Background q = none)
    (hkth : (pointsOf env.rangeOrder)[k - 1]? = some p)
    (hfail : env.WritePoint (k - 1) (writeAPI env) Context.Background p = some e) :
    k ≤ 6 ∧
    (dbWrite env Context.Background).2 = .returned (some ("write API write point: " ++ e)) ∧
    (dbWrite env Context.Background).1 =
      ((pointsOf env.rangeOrder).take (k - 1)).flatMap (acked (writeAPI env) Context.Background)
        ++ [.writePoint (writeAPI env) Context.Background p] ∧
    submissions (dbWrite env Context.Background).1 = (pointsOf env.rangeOrder).take k ∧
    (submissions (dbWrite env Context.Background).1).length = k ∧
    (main env).1 = (dbWrite env Context.Background).1
      ++ [.stderr ("error: " ++ ("write API write point: " ++ e) ++ "\n")] ∧
    (main env).2 = .exit 1 := by
  have hkeys : ∀ key ∈ env.rangeOrder, key ∈ dataKeys := fun key hk => horder.subset hk
  have hlen : (pointsOf env.rangeOrder).length = 6 := by
    rw [(pointsOf_perm _ horder).length_eq]; decide
  have hlt : k - 1 < (pointsOf env.rangeOrder).length := by
    by_contra hge
    rw [List.getElem?_eq_none (by omega)] at hkth
    exact Option.noConfusion hkth
  have hw := dbWriteLoop_fail env (writeAPI env) Context.Background env.rangeOrder 0 (k - 1) p e
    hkeys (fun i q hi hq => by simpa using hack i q hi hq) hkth (by simpa using hfail)
  have hw1 : (dbWrite env Context.Background).1 =
      ((pointsOf env.rangeOrder).take (k - 1)).flatMap (acked (writeAPI env) Context.Background)
        ++ [.writePoint (writeAPI env) Context.Background p] := by
    simp only [dbWrite, hw]
  have hw2 : (dbWrite env Context.Background).2
      = .returned (some ("write API write point: " ++ e)) := by
    simp only [dbWrite, hw]
  have hsub : submissions (dbWrite env Context.Background).1 = (pointsOf env.rangeOrder).take k := by
    rw [hw1]
    have hk : k = (k - 1) + 1 := by omega
    have htake : (pointsOf env.rangeOrder).take k
        = (pointsOf env.rangeOrder).take (k - 1) ++ [p] := by
      conv_lhs => rw [hk]
      rw [List.take_succ, hkth]
      rfl
    rw [htake]
    have := submissions_acked (writeAPI env) Context.Background
      ((pointsOf env.rangeOrder).take (k - 1))
    simp only [submissions] at this ⊢
    rw [List.filterMap_append, this]
    rfl
  refine ⟨by omega, hw2, hw1, hsub, ?_, ?_, ?_⟩
  · rw [hsub, List.length_take]; omega
  · simp only [main, hw2]
  · simp only [main, hw2]

/-- Witness of C2: the third submission is rejected. -/
theorem C2_fail_fast_witness :
    (envRejectAt 2).rangeOrder.Perm dataKeys ∧
      (dbWrite (envRejectAt 2) Context.Background).2
        = .returned (some "write API write point: 503 Service Unavailable") ∧
      (submissions (dbWrite (envRejectAt 2) Context.Background).1).length = 3 ∧
      (main (envRejectAt 2)).2 = .exit 1 := by
  have h := C2_fail_fast (envRejectAt 2) 3
    { measurement := "census", tags := [("location", "Klamath")],
      fields := [("bees", .int 28)], time := none }
    "503 Service Unavailable" (by decide) (by decide)
    (fun i q hi _ => by
      have : i ≠ 2 := by omega
      simp [envRejectAt, this])
    (by decide) (by decide)
  exact ⟨by decide, h.2.1, h.2.2.2.2.1, h.2.2.2.2.2.2⟩

/-- C3: when the visiting order is a permutation of the keys and every
submission is acknowledged, `dbWrite` returns nil after submitting six points,
the i-th being the point of the i-th key visited (so one per key, none
repeated), each submission is followed by a pause of one second, and between
any two submissions there is a pause of at least one second. -/
theorem C3_all_acknowledged {ρ : Type} (env : Env ρ)
    (horder : env.rangeOrder.Perm dataKeys)
    (hack : ∀ i q, (pointsOf env.rangeOrder)[i]? = some q →
      env.WritePoint i (writeAPI env) Context.Background q = none) :
    (dbWrite env Context.Background).2 = .returned none ∧
    (dbWrite env Context.Background).1 =
      (pointsOf env.rangeOrder).flatMap
        (fun p => [.writePoint (writeAPI env) Context.Background p, .sleep Second]) ∧
    List.Forall₂ (fun key p => buildPoint key = .ok p) env.rangeOrder
      (submissions (dbWrite env Context.Background).1) ∧
    (submissions (dbWrite env Context.Background).1).length = 6 ∧
    (submissions (dbWrite env Context.Background).1).Nodup ∧
    (submissions (dbWrite env Context.Background).1).Perm (pointsOf dataKeys) ∧
    (∀ (pre mid post : List Event) (a b : WriteAPI) (c d : Context) (p q : Point),
      (dbWrite env Context.Background).1 =
        pre ++ .writePoint a c p :: (mid ++ .writePoint b d q :: post) →
      ∃ t, Second ≤ t ∧ Event.sleep t ∈ mid) := by
  have hkeys : ∀ key ∈ env.rangeOrder, key ∈ dataKeys := fun key hk => horder.subset hk
  have hw := dbWriteLoop_acked env (writeAPI env) Context.Background env.rangeOrder 0
    hkeys (fun i q hq => by simpa using hack i q hq)
  have hw1 : (dbWrite env Context.Background).1 =
      (pointsOf env.rangeOrder).flatMap (acked (writeAPI env) Context.Background) := by
    simp only [dbWrite, hw]
  have hsub : submissions (dbWrite env Context.Background).1 = pointsOf env.rangeOrder := by
    rw [hw1, submissions_acked]
  have hperm := pointsOf_perm _ horder
  refine ⟨by simp only [dbWrite, hw], hw1, ?_, ?_, ?_, ?_, ?_⟩
  · rw [hsub]; exact pointsOf_forall₂ _ hkeys
  · rw [hsub, hperm.length_eq]; decide
  · rw [hsub, hperm.nodup_iff]; decide
  · rw [hsub]; exact hperm
  · intro pre mid post a b c d p q h
    rw [hw1] at h
    exact ⟨Second, le_refl _,
      sleep_between (writeAPI env) Context.Background _ pre mid post a b c d p q h⟩

/-- Witness of C3: every submission acknowledged, keys visited in source order. -/
theorem C3_all_acknowledged_witness :
    (envOf emptyStream).rangeOrder.Perm dataKeys ∧
      (dbWrite (envOf emptyStream) Context.Background).2 = .returned none ∧
      (submissions (dbWrite (envOf emptyStream) Context.Background).1).length = 6 := by
  have h := C3_all_acknowledged (envOf emptyStream) (by decide) (fun _ _ _ => rfl)
  exact ⟨by decide, h.1, h.2.2.2.1⟩

/-! ## Lemmas on dbQuery -/

theorem readLoop_events {ρ : Type} (marshal : ρ → Except String String)
    (bs : List (ρ × Option String)) :
    ∀ ev ∈ (readLoop marshal bs).1, ∃ t, ev = .stdout t := by
  induction bs with
  | nil => intro ev h; simp [readLoop] at h
  | cons b rest ih =>
    obtain ⟨record, readerErr⟩ := b
    intro ev h
    unfold readLoop at h
    cases hm : marshal record with
    | error err => simp [hm] at h
    | ok j =>
      cases readerErr with
      | some err =>
        simp [hm] at h
        exact ⟨_, h⟩
      | none =>
        simp [hm] at h
        rcases h with rfl | h
        · exact ⟨_, rfl⟩
        · exact ih ev h

theorem readLoop_doGets {ρ : Type} (marshal : ρ → Except String String)
    (bs : List (ρ × Option String)) : doGets (readLoop marshal bs).1 = [] := by
  simp only [doGets, List.filterMap_eq_nil_iff]
  intro ev hev
  obtain ⟨t, rfl⟩ := readLoop_events marshal bs ev hev
  rfl

theorem readLoop_stderr {ρ : Type} (marshal : ρ → Except String String)
    (bs : List (ρ × Option String)) : stderrOf (readLoop marshal bs).1 = [] := by
  simp only [stderrOf, List.filterMap_eq_nil_iff]
  intro ev hev
  obtain ⟨t, rfl⟩ := readLoop_events marshal bs ev hev
  rfl

theorem readLoop_clean {ρ : Type} (marshal : ρ → Except String String) (bs : List ρ)
    (js : List String) (h : List.Forall₂ (fun b j => marshal b = .ok j) bs js) :
    readLoop marshal (bs.map (fun b => (b, none)))
      = (js.map (fun j => Event.stdout (j ++ "\n")), .returned none) := by
  induction h with
  | nil => simp [readLoop]
  | cons hj _ ih => simp [readLoop, hj, ih]

theorem dbQuery_pool_error {ρ : Type} (env : Env ρ) (ctx : Context) (e : String)
    (hpool : env.SystemCertPool = .error e) :
    dbQuery env ctx = ([], .returned (some ("x509: " ++ e))) := by
  simp [dbQuery, hpool]

theorem dbQuery_client_error {ρ : Type} (env : Env ρ) (ctx : Context) (pool : CertPool)
    (e : String) (hpool : env.SystemCertPool = .ok pool)
    (hclient : env.NewClient dialURL (dialOpts pool) = .error e) :
    dbQuery env ctx = ([], .returned (some ("flightsql: " ++ e))) := by
  simp [dbQuery, hpool, hclient]

theorem dbQuery_execute_error {ρ : Type} (env : Env ρ) (ctx : Context) (pool : CertPool)
    (client : Client ρ) (e : String) (hpool : env.SystemCertPool = .ok pool)
    (hclient : env.NewClient dialURL (dialOpts pool) = .ok client)
    (hexec : client.Execute (queryContext env ctx) query = .error e) :
    dbQuery env ctx = ([.execute (queryContext env ctx) query],
      .returned (some ("flightsql flight info: " ++ e))) := by
  simp [dbQuery, hpool, hclient, hexec]

theorem dbQuery_no_endpoint {ρ : Type} (env : Env ρ) (ctx : Context) (pool : CertPool)
    (client : Client ρ) (info : FlightInfo) (hpool : env.SystemCertPool = .ok pool)
    (hclient : env.NewClient dialURL (dialOpts pool) = .ok client)
    (hexec : client.Execute (queryContext env ctx) query = .ok info)
    (hep : info.endpoint = []) :
    dbQuery env ctx = ([.execute (queryContext env ctx) query],
      .panicked "runtime error: index out of range [0] with length 0") := by
  simp [dbQuery, hpool, hclient, hexec, hep]

theorem dbQuery_doGet_error {ρ : Type} (env : Env ρ) (ctx : Context) (pool : CertPool)
    (client : Client ρ) (info : FlightInfo) (first : FlightEndpoint)
    (others : List FlightEndpoint) (e : String) (hpool : env.SystemCertPool = .ok pool)
    (hclient : env.NewClient dialURL (dialOpts pool) = .ok client)
    (hexec : client.Execute (queryContext env ctx) query = .ok info)
    (hep : info.endpoint = first :: others)
    (hget : client.DoGet (queryContext env ctx) first.ticket = .error e) :
    dbQuery env ctx =
      ([.execute (queryContext env ctx) query, .doGet (queryContext env ctx) first.ticket],
        .returned (some ("flightsql do get: " ++ e))) := by
  simp [dbQuery, hpool, hclient, hexec, hep, hget]

theorem dbQuery_stream {ρ : Type} (env : Env ρ) (ctx : Context) (pool : CertPool)
    (client : Client ρ) (info : FlightInfo) (first : FlightEndpoint)
    (others : List FlightEndpoint) (s : RecordStream ρ) (hpool : env.SystemCertPool = .ok pool)
    (hclient : env.NewClient dialURL (dialOpts pool) = .ok client)
    (hexec : client.Execute (queryContext env ctx) query = .ok info)
    (hep : info.endpoint = first :: others)
    (hget : client.DoGet (queryContext env ctx) first.ticket = .ok s) :
    dbQuery env ctx =
      (.execute (queryContext env ctx) query :: .doGet (queryContext env ctx) first.ticket ::
        (readLoop env.Marshal s.batches).1, (readLoop env.Marshal s.batches).2) := by
  simp [dbQuery, hpool, hclient, hexec, hep, hget]

theorem queryContext_carries {ρ : Type} (env : Env ρ) (ctx : Context) :
    Carries env (queryContext env ctx) := by
  simp [Carries, queryContext, AppendToOutgoingContext]

theorem dbQuery_events {ρ : Type} (env : Env ρ) (ctx : Context) :
    ∀ ev ∈ (dbQuery env ctx).1,
      ev = .execute (queryContext env ctx) query ∨
      (∃ t, ev = .doGet (queryContext env ctx) t) ∨ (∃ t, ev = .stdout t) := by
  intro ev hev
  cases hpool : env.SystemCertPool with
  | error e => rw [dbQuery_pool_error env ctx e hpool] at hev; simp at hev
  | ok pool =>
    cases hclient : env.NewClient dialURL (dialOpts pool) with
    | error e => rw [dbQuery_client_error env ctx pool e hpool hclient] at hev; simp at hev
    | ok client =>
      cases hexec : client.Execute (queryContext env ctx) query with
      | error e =>
        rw [dbQuery_execute_error env ctx pool client e hpool hclient hexec] at hev
        simp at hev
        exact Or.inl hev
      | ok info =>
        cases hep : info.endpoint with
        | nil =>
          rw [dbQuery_no_endpoint env ctx pool client info hpool hclient hexec hep] at hev
          simp at hev
          exact Or.inl hev
        | cons first others =>
          cases hget : client.DoGet (queryContext env ctx) first.ticket with
          | error e =>
            rw [dbQuery_doGet_error env ctx pool client info first others e hpool hclient hexec
              hep hget] at hev
            simp at hev
            rcases hev with rfl | rfl
            · exact Or.inl rfl
            · exact Or.inr (Or.inl ⟨_, rfl⟩)
          | ok s =>
            rw [dbQuery_stream env ctx pool client info first others s hpool hclient hexec
              hep hget] at hev
            simp at hev
            rcases hev with rfl | rfl | hev
            · exact Or.inl rfl
            · exact Or.inr (Or.inl ⟨_, rfl⟩)
            · exact Or.inr (Or.inr (readLoop_events _ _ ev hev))

theorem dbQuery_stderr {ρ : Type} (env : Env ρ) (ctx : Context) :
    stderrOf (dbQuery env ctx).1 = [] := by
  simp only [stderrOf, List.filterMap_eq_nil_iff]
  intro ev hev
  rcases dbQuery_events env ctx ev hev with rfl | ⟨t, rfl⟩ | ⟨t, rfl⟩ <;> rfl

theorem stdoutOf_append (a b : List Event) : stdoutOf (a ++ b) = stdoutOf a ++ stdoutOf b := by
  simp [stdoutOf, List.filterMap_append]

theorem stderrOf_append (a b : List Event) : stderrOf (a ++ b) = stderrOf a ++ stderrOf b := by
  simp [stderrOf, List.filterMap_append]

theorem stdoutOf_lines (js : List String) :
    List.filterMap Event.out? (js.map (fun j => Event.stdout (j ++ "\n")))
      = js.map (fun j => j ++ "\n") := by
  induction js with
  | nil => rfl
  | cons j js ih => simp [List.filterMap_cons, Event.out?, ih]

/-! ## Claims on dbQuery and main -/

/-- C4: on the stream `brokenStream`, whose second pull reports the end of the
stream with the terminal error set, `dbQuery` prints the one batch and returns
nil, and `main` prints "Read Successful..." and exits with code 0: the error
is lost. -/
theorem C4_terminal_error_lost :
    brokenStream.final = some "rpc error: code = Unavailable" ∧
    (dbQuery (envOf brokenStream) Context.Background).2 = .returned none ∧
    stdoutOf (dbQuery (envOf brokenStream) Context.Background).1 = ["batch-1\n"] ∧
    stdoutOf (main (envOf brokenStream)).1
      = ["Write Successful...\n", "batch-1\n", "Read Successful...\n"] ∧
    stderrOf (main (envOf brokenStream)).1 = [] ∧
    (main (envOf brokenStream)).2 = .exit 0 := by
  decide

/-- C5, counterexample: the trust store cannot be loaded, so `dbQuery` returns
an error and `main` exits with code 1, yet "Write Successful..." has been
printed to standard output. -/
theorem C5_write_message_printed :
    (dbQuery envNoCertPool Context.Background).2 = .returned (some "x509: no system roots") ∧
    (main envNoCertPool).2 = .exit 1 ∧
    "Write Successful...\n" ∈ stdoutOf (main envNoCertPool).1 := by
  decide

/-- C5, amended: when `dbWrite` returns the error `e`, `main` writes
"error: e" to standard error after the events of `dbWrite`, exits with code 1
and prints nothing to standard output; when `dbWrite` returns nil and
`dbQuery` returns the error `e`, `main` has printed "Write Successful..."
before the query, writes "error: e" to standard error after the events of
`dbQuery`, exits with code 1, and prints nothing else to standard output. -/
theorem C5_error_exit {ρ : Type} (env : Env ρ) :
    (∀ e, (dbWrite env Context.Background).2 = .returned (some e) →
      (main env).1 = (dbWrite env Context.Background).1 ++ [.stderr ("error: " ++ e ++ "\n")] ∧
      (main env).2 = .exit 1 ∧
      stderrOf (main env).1 = ["error: " ++ e ++ "\n"] ∧
      stdoutOf (main env).1 = []) ∧
    (∀ e, (dbWrite env Context.Background).2 = .returned none →
      (dbQuery env Context.Background).2 = .returned (some e) →
      (main env).1 = (dbWrite env Context.Background).1 ++
        .stdout "Write Successful...\n" :: (dbQuery env Context.Background).1 ++
          [.stderr ("error: " ++ e ++ "\n")] ∧
      (main env).2 = .exit 1 ∧
      stderrOf (main env).1 = ["error: " ++ e ++ "\n"] ∧
      stdoutOf (main env).1
        = "Write Successful...\n" :: stdoutOf (dbQuery env Context.Background).1) := by
  obtain ⟨hwo, hwe, _⟩ := dbWrite_silent env Context.Background
  have hqe := dbQuery_stderr env Context.Background
  simp only [stdoutOf] at hwo
  simp only [stderrOf] at hwe hqe
  constructor
  · intro e hw
    have hm : main env
        = ((dbWrite env Context.Background).1 ++ [.stderr ("error: " ++ e ++ "\n")], .exit 1) := by
      simp only [main, hw]
    refine ⟨by rw [hm], by rw [hm], ?_, ?_⟩
    · rw [hm]
      simp [stderrOf, List.filterMap_append, hwe, Event.err?]
    · rw [hm]
      simp [stdoutOf, List.filterMap_append, hwo, Event.out?]
  · intro e hw hq
    have hm : main env
        = ((dbWrite env Context.Background).1 ++
            .stdout "Write Successful...\n" :: (dbQuery env Context.Background).1 ++
              [.stderr ("error: " ++ e ++ "\n")], .exit 1) := by
      simp only [main, hw, hq]
    refine ⟨by rw [hm], by rw [hm], ?_, ?_⟩
    · rw [hm]
      simp [stderrOf, List.filterMap_append, List.filterMap_cons, hwe, hqe, Event.err?]
    · rw [hm]
      simp [stdoutOf, List.filterMap_append, List.filterMap_cons, hwo, Event.out?]

/-- Witness of C5 (amended): the read phase fails on the trust store. -/
theorem C5_error_exit_witness :
    (dbWrite envNoCertPool Context.Background).2 = .returned none ∧
    (dbQuery envNoCertPool Context.Background).2 = .returned (some "x509: no system roots") ∧
    (main envNoCertPool).2 = .exit 1 ∧
    stderrOf (main envNoCertPool).1 = ["error: " ++ "x509: no system roots" ++ "\n"] := by
  have h := (C5_error_exit envNoCertPool).2 "x509: no system roots" (by decide) (by decide)
  exact ⟨by decide, by decide, h.2.1, h.2.2.1⟩

/-- C6: when the JSON encoder rejects a batch with the error
"json: unsupported value: NaN", `dbQuery` returns exactly that error, with no
prefix, and `main` reports it as it is. -/
theorem C6_marshal_error_bare :
    (dbQuery envBadJSON Context.Background).2
      = .returned (some "json: unsupported value: NaN") ∧
    stderrOf (main envBadJSON).1 = ["error: json: unsupported value: NaN\n"] ∧
    (main envBadJSON).2 = .exit 1 := by
  decide

/-- C7: when the write phase succeeds, the query reaches a stream that delivers
the batches `bs` with no error, and each batch serializes to the matching text
of `js`, `dbQuery` returns nil after writing exactly one line per batch, in
stream order; `main` then prints "Read Successful..." as its last event and
exits with code 0. -/
theorem C7_stream_to_output {ρ : Type} (env : Env ρ) (pool : CertPool) (client : Client ρ)
    (info : FlightInfo) (first : FlightEndpoint) (others : List FlightEndpoint)
    (s : RecordStream ρ) (bs : List ρ) (js : List String)
    (hwrite : (dbWrite env Context.Background).2 = .returned none)
    (hpool : env.SystemCertPool = .ok pool)
    (hclient : env.NewClient dialURL (dialOpts pool) = .ok client)
    (hexec : client.Execute (queryContext env Context.Background) query = .ok info)
    (hep : info.endpoint = first :: others)
    (hget : client.DoGet (queryContext env Context.Background) first.ticket = .ok s)
    (hbatches : s.batches = bs.map (fun b => (b, none))) (_hfinal : s.final = none)
    (hjson : List.Forall₂ (fun b j => env.Marshal b = .ok j) bs js) :
    (dbQuery env Context.Background).2 = .returned none ∧
    stdoutOf (dbQuery env Context.Background).1 = js.map (fun j => j ++ "\n") ∧
    (stdoutOf (dbQuery env Context.Background).1).length = bs.length ∧
    (main env).2 = .exit 0 ∧
    stdoutOf (main env).1
      = "Write Successful...\n" :: js.map (fun j => j ++ "\n") ++ ["Read Successful...\n"] ∧
    (main env).1.getLast? = some (.stdout "Read Successful...\n") := by
  have hq := dbQuery_stream env Context.Background pool client info first others s
    hpool hclient hexec hep hget
  rw [hbatches, readLoop_clean env.Marshal bs js hjson] at hq
  simp only at hq
  have hq2 : (dbQuery env Context.Background).2 = .returned none := by rw [hq]
  have hout : stdoutOf (dbQuery env Context.Background).1 = js.map (fun j => j ++ "\n") := by
    rw [hq]
    simp only [stdoutOf, List.filterMap_cons, Event.out?]
    exact stdoutOf_lines js
  have hm : main env = ((dbWrite env Context.Background).1 ++
      .stdout "Write Successful...\n" :: (dbQuery env Context.Background).1 ++
        [.stdout "Read Successful...\n"], .exit 0) := by
    simp only [main, hwrite, hq2]
  obtain ⟨hwo, _, _⟩ := dbWrite_silent env Context.Background
  simp only [stdoutOf] at hwo hout
  refine ⟨hq2, by simpa only [stdoutOf] using hout, ?_, by rw [hm], ?_, ?_⟩
  · simp only [stdoutOf, hout, List.length_map]
    exact hjson.length_eq.symm
  · rw [hm]
    simp [stdoutOf, List.filterMap_append, List.filterMap_cons, hwo, hout, Event.out?]
  · rw [hm]
    exact List.getLast?_concat _

/-- Witness of C7: a stream of two batches. -/
theorem C7_stream_to_output_witness :
    (dbWrite (envOf twoBatches) Context.Background).2 = .returned none ∧
    stdoutOf (dbQuery (envOf twoBatches) Context.Background).1 = ["batch-1\n", "batch-2\n"] ∧
    (main (envOf twoBatches)).2 = .exit 0 ∧
    (main (envOf twoBatches)).1.getLast? = some (.stdout "Read Successful...\n") := by
  have h := C7_stream_to_output (envOf twoBatches) { subjects := [] } (clientOf twoBatches)
    { endpoint := [{ ticket := some ⟨[1]⟩, location := [] }] }
    { ticket := some ⟨[1]⟩, location := [] } [] twoBatches ["batch-1", "batch-2"]
    ["batch-1", "batch-2"] (by decide) rfl rfl rfl rfl rfl rfl rfl
    (List.Forall₂.cons rfl (List.Forall₂.cons rfl List.Forall₂.nil))
  exact ⟨by decide, h.2.1, h.2.2.2.1, h.2.2.2.2.2⟩

/-- C8: every call of `Execute` and of `DoGet` that `dbQuery` makes carries
authorization = "Bearer " ++ token and bucket-name = bucket of the
configuration in its outgoing metadata; the query text passed to `Execute` is
the fixed literal `query`, the same for any two configurations; and when the
client is set up the call of `Execute` is made. -/
theorem C8_auth_metadata {ρ : Type} (env env' : Env ρ) (ctx ctx' : Context) :
    (∀ c q, Event.execute c q ∈ (dbQuery env ctx).1 → Carries env c ∧ q = query) ∧
    (∀ c t, Event.doGet c t ∈ (dbQuery env ctx).1 → Carries env c) ∧
    (∀ c q c' q', Event.execute c q ∈ (dbQuery env ctx).1 →
      Event.execute c' q' ∈ (dbQuery env' ctx').1 → q = q') ∧
    (queryContext env Context.Background).outgoing
      = [("authorization", "Bearer " ++ env.INFLUXDB_TOKEN), ("bucket-name", env.BUCKET)] ∧
    (∀ pool client, env.SystemCertPool = .ok pool →
      env.NewClient dialURL (dialOpts pool) = .ok client →
      (dbQuery env ctx).1.head? = some (.execute (queryContext env ctx) query)) := by
  have hex : ∀ (e : Env ρ) (x : Context) c q, Event.execute c q ∈ (dbQuery e x).1 →
      c = queryContext e x ∧ q = query := by
    intro e x c q h
    rcases dbQuery_events e x _ h with h | ⟨t, h⟩ | ⟨t, h⟩
    · simpa using h
    · simp at h
    · simp at h
  refine ⟨?_, ?_, ?_, rfl, ?_⟩
  · intro c q h
    obtain ⟨rfl, rfl⟩ := hex env ctx c q h
    exact ⟨queryContext_carries env ctx, rfl⟩
  · intro c t h
    rcases dbQuery_events env ctx _ h with h | ⟨t, h⟩ | ⟨t, h⟩
    · simp at h
    · simp only [Event.doGet.injEq] at h
      rw [h.1]
      exact queryContext_carries env ctx
    · simp at h
  · intro c q c' q' h h'
    rw [(hex env ctx c q h).2, (hex env' ctx' c' q' h').2]
  · intro pool client hpool hclient
    cases hexec : client.Execute (queryContext env ctx) query with
    | error e => rw [dbQuery_execute_error env ctx pool client e hpool hclient hexec]; rfl
    | ok info =>
      cases hep : info.endpoint with
      | nil => rw [dbQuery_no_endpoint env ctx pool client info hpool hclient hexec hep]; rfl
      | cons first others =>
        cases hget : client.DoGet (queryContext env ctx) first.ticket with
        | error e =>
          rw [dbQuery_doGet_error env ctx pool client info first others e hpool hclient hexec
            hep hget]
          rfl
        | ok s =>
          rw [dbQuery_stream env ctx pool client info first others s hpool hclient hexec
            hep hget]
          rfl

/-- Witness of C8: the call of `Execute` in a run where every call succeeds. -/
theorem C8_auth_metadata_witness :
    Event.execute (queryContext (envOf emptyStream) Context.Background) query
        ∈ (dbQuery (envOf emptyStream) Context.Background).1 ∧
      Carries (envOf emptyStream) (queryContext (envOf emptyStream) Context.Background) :=
  ⟨by decide,
    ((C8_auth_metadata (envOf emptyStream) (envPlan []) Context.Background
      Context.Background).1 (queryContext (envOf emptyStream) Context.Background) query
        (by decide)).1⟩

/-- C9: when `Execute` returns a plan whose endpoint list is `first :: others`,
`dbQuery` opens exactly one streaming read, with the ticket of `first`; and a
second run that differs only in the plan's other endpoints (same token, bucket,
encoder and `DoGet`, plan `first :: others'`) gives the same events and the
same result. -/
theorem C9_first_endpoint_only {ρ : Type} (env env' : Env ρ) (ctx : Context)
    (pool pool' : CertPool) (client client' : Client ρ) (info info' : FlightInfo)
    (first : FlightEndpoint) (others others' : List FlightEndpoint)
    (hpool : env.SystemCertPool = .ok pool)
    (hclient : env.NewClient dialURL (dialOpts pool) = .ok client)
    (hexec : client.Execute (queryContext env ctx) query = .ok info)
    (hep : info.endpoint = first :: others)
    (hpool' : env'.SystemCertPool = .ok pool')
    (hclient' : env'.NewClient dialURL (dialOpts pool') = .ok client')
    (hexec' : client'.Execute (queryContext env' ctx) query = .ok info')
    (hep' : info'.endpoint = first :: others')
    (htoken : env'.INFLUXDB_TOKEN = env.INFLUXDB_TOKEN) (hbucket : env'.BUCKET = env.BUCKET)
    (hmarshal : env'.Marshal = env.Marshal) (hget : client'.DoGet = client.DoGet) :
    doGets (dbQuery env ctx).1 = [first.ticket] ∧ dbQuery env' ctx = dbQuery env ctx := by
  have hctx : queryContext env' ctx = queryContext env ctx := by
    simp only [queryContext, htoken, hbucket]
  constructor
  · cases hg : client.DoGet (queryContext env ctx) first.ticket with
    | error e =>
      rw [dbQuery_doGet_error env ctx pool client info first others e hpool hclient hexec hep hg]
      rfl
    | ok s =>
      rw [dbQuery_stream env ctx pool client info first others s hpool hclient hexec hep hg]
      have := readLoop_doGets env.Marshal s.batches
      simp only [doGets] at this ⊢
      simp [List.filterMap_cons, Event.ticket?, this]
  · cases hg : client.DoGet (queryContext env ctx) first.ticket with
    | error e =>
      rw [dbQuery_doGet_error env ctx pool client info first others e hpool hclient hexec hep hg,
        dbQuery_doGet_error env' ctx pool' client' info' first others' e hpool' hclient' hexec'
          hep' (by rw [hget, hctx, hg]), hctx]
    | ok s =>
      rw [dbQuery_stream env ctx pool client info first others s hpool hclient hexec hep hg,
        dbQuery_stream env' ctx pool' client' info' first others' s hpool' hclient' hexec'
          hep' (by rw [hget, hctx, hg]), hctx, hmarshal]

/-- Witness of C9: a plan with one endpoint against a plan with a second one. -/
theorem C9_first_endpoint_only_witness :
    doGets (dbQuery (envPlan [endpointOne]) Context.Background).1 = [some ⟨[1]⟩] ∧
      dbQuery (envPlan [endpointOne, endpointTwo]) Context.Background
        = dbQuery (envPlan [endpointOne]) Context.Background :=
  C9_first_endpoint_only (envPlan [endpointOne]) (envPlan [endpointOne, endpointTwo])
    Context.Background { subjects := [] } { subjects := [] } _ _
    { endpoint := [endpointOne] } { endpoint := [endpointOne, endpointTwo] }
    endpointOne [] [endpointTwo] rfl rfl rfl rfl rfl rfl rfl rfl rfl rfl rfl rfl

/-- C10: when the write phase succeeds and `Execute` returns a plan with no
endpoint, `dbQuery` does not return: it panics on the index, having made no
call of `DoGet` and written nothing to standard output; `main` ends in that
panic, and the run has no line on standard error from `main` and no
"Read Successful...": its standard output is "Write Successful..." alone. -/
theorem C10_empty_plan_panics {ρ : Type} (env : Env ρ) (pool : CertPool) (client : Client ρ)
    (info : FlightInfo)
    (hwrite : (dbWrite env Context.Background).2 = .returned none)
    (hpool : env.SystemCertPool = .ok pool)
    (hclient : env.NewClient dialURL (dialOpts pool) = .ok client)
    (hexec : client.Execute (queryContext env Context.Background) query = .ok info)
    (hep : info.endpoint = []) :
    (dbQuery env Context.Background).2
      = .panicked "runtime error: index out of range [0] with length 0" ∧
    (∀ err, (dbQuery env Context.Background).2 ≠ .returned err) ∧
    doGets (dbQuery env Context.Background).1 = [] ∧
    stdoutOf (dbQuery env Context.Background).1 = [] ∧
    (main env).2 = .panic "runtime error: index out of range [0] with length 0" ∧
    stderrOf (main env).1 = [] ∧
    stdoutOf (main env).1 = ["Write Successful...\n"] := by
  have hq := dbQuery_no_endpoint env Context.Background pool client info hpool hclient hexec hep
  have hq2 : (dbQuery env Context.Background).2
      = .panicked "runtime error: index out of range [0] with length 0" := by rw [hq]
  have hm : main env = ((dbWrite env Context.Background).1 ++
      .stdout "Write Successful...\n" :: (dbQuery env Context.Background).1,
      .panic "runtime error: index out of range [0] with length 0") := by
    simp only [main, hwrite, hq2]
  obtain ⟨hwo, hwe, _⟩ := dbWrite_silent env Context.Background
  simp only [stdoutOf] at hwo
  simp only [stderrOf] at hwe
  refine ⟨hq2, ?_, by rw [hq]; rfl, by rw [hq]; rfl, by rw [hm], ?_, ?_⟩
  · intro err h
    rw [hq2] at h
    exact Outcome.noConfusion h
  · rw [hm, hq]
    simp [stderrOf, List.filterMap_append, List.filterMap_cons, hwe, Event.err?]
  · rw [hm, hq]
    simp [stdoutOf, List.filterMap_append, List.filterMap_cons, hwo, Event.out?]

/-- Witness of C10: a plan with no endpoint. -/
theorem C10_empty_plan_panics_witness :
    (dbWrite (envPlan []) Context.Background).2 = .returned none ∧
    (dbQuery (envPlan []) Context.Background).2
      = .panicked "runtime error: index out of range [0] with length 0" ∧
    stdoutOf (main (envPlan [])).1 = ["Write Successful...\n"] := by
  have h := C10_empty_plan_panics (envPlan []) { subjects := [] } _ { endpoint := [] }
    (by decide) rfl rfl rfl rfl
  exact ⟨by decide, h.1, h.2.2.2.2.2.2⟩

end InfluxSample
